import Mathlib

/-!
Shallow embedding of the Wayback Machine URL Archiver's orchestration logic
(src/js/modules/waybackAPI.js, src/js/modules/urlProcessor.js,
src/js/modules/statusTracker.js, src/js/app.js) together with theorems
settling the behavioural claims about it.

Network effects are embedded by passing the outcome of each remote call as an
explicit argument (an oracle); the JavaScript objects returned by the modules
become Lean structures, with absent object fields modelled as `none` / `false`.
-/

namespace Wayback

/-- The `archived_snapshots.closest` descriptor of an availability response. -/
structure Closest where
  available : Bool
  url : String
  timestamp : Option String
deriving DecidableEq

/-- Outcome of one `fetch` of the availability endpoint, as consumed by
`_checkViaAvailabilityApi` / `_checkViaCdxApi`: either a parsed JSON body
(whose `archived_snapshots.closest` descriptor may be missing), an HTTP
error status, a JSON parse failure, a transport failure, or a timeout
(`AbortError`). -/
inductive FetchOutcome where
  | ok (closest : Option Closest)
  | httpError (status : Nat)
  | invalidJson (msg : String)
  | transportError (msg : String)
  | timeout
deriving DecidableEq

/-- JavaScript `String.prototype.slice(a, b)` on a non-negative range. -/
def jsSlice (s : String) (a b : Nat) : String :=
  ((s.toList.drop a).take (b - a)).asString

/-- `WaybackAPI._formatTimestamp` (waybackAPI.js lines 258-269).  A `none`
argument models a `null`/`undefined` timestamp, which is falsy in JS. -/
def formatTimestamp (timestamp : Option String) : String :=
  match timestamp with
  | none => "Unknown date"
  | some t =>
    if t.length < 14 then "Unknown date"
    else
      let year := jsSlice t 0 4
      let month := jsSlice t 4 6
      let day := jsSlice t 6 8
      let hour := jsSlice t 8 10
      let minute := jsSlice t 10 12
      let second := jsSlice t 12 14
      year ++ "-" ++ month ++ "-" ++ day ++ " " ++ hour ++ ":" ++ minute ++ ":" ++ second

/-- The manual check URL `https://web.archive.org/web/*/${url}` used by every
failure branch of the status checks. -/
def checkUrlFor (url : String) : String :=
  "https://web.archive.org/web/*/" ++ url

/-- The archive-status record produced by the status checks (JS object with
optional fields; an absent field is `none`/`false`). -/
structure CheckResult where
  isArchived : Bool
  url : String
  archiveUrl : Option String
  timestamp : Option String
  formattedDate : Option String
  source : String
  error : Option String
  checkUrl : Option String
  timeout : Bool
deriving DecidableEq

/-- An `isArchived:false` record with no error, as built by the success path
of `_checkViaAvailabilityApi` when no available snapshot is reported. -/
def availNotArchived (url : String) : CheckResult :=
  { isArchived := false, url := url, archiveUrl := none, timestamp := none,
    formattedDate := none, source := "availability_api", error := none,
    checkUrl := none, timeout := false }

/-- A failure record of `_checkViaAvailabilityApi`. -/
def availErrorRecord (url msg : String) (timedOut : Bool) : CheckResult :=
  { isArchived := false, url := url, archiveUrl := none, timestamp := none,
    formattedDate := none, source := "availability_api", error := some msg,
    checkUrl := some (checkUrlFor url), timeout := timedOut }

/-- `WaybackAPI._checkViaAvailabilityApi` (waybackAPI.js lines 81-152), with
the network outcome passed explicitly. -/
def checkViaAvailabilityApi (url : String) (o : FetchOutcome) : CheckResult :=
  match o with
  | .ok closest =>
    match closest with
    | some c =>
      if c.available then
        { isArchived := true, url := url, archiveUrl := some c.url,
          timestamp := c.timestamp,
          formattedDate := some (formatTimestamp c.timestamp),
          source := "availability_api", error := none, checkUrl := none,
          timeout := false }
      else availNotArchived url
    | none => availNotArchived url
  | .httpError status => availErrorRecord url ("HTTP error " ++ toString status) false
  | .invalidJson msg => availErrorRecord url msg false
  | .transportError msg => availErrorRecord url msg false
  | .timeout =>
    availErrorRecord url
      "Request timed out. The Wayback Machine API is responding slowly." true

/-- A failure record of `_checkViaCdxApi`. -/
def cdxErrorRecord (url msg : String) (timedOut : Bool) : CheckResult :=
  { isArchived := false, url := url, archiveUrl := none, timestamp := none,
    formattedDate := none, source := "availability_api_with_timestamp",
    error := some msg, checkUrl := some (checkUrlFor url), timeout := timedOut }

/-- `WaybackAPI._checkViaCdxApi` (waybackAPI.js lines 160-250): despite its
name it queries the availability endpoint with `timestamp=20000101`; its
response has the same shape as the primary availability lookup. -/
def checkViaCdxApi (url : String) (o : FetchOutcome) : CheckResult :=
  match o with
  | .ok closest =>
    match closest with
    | some c =>
      if c.available then
        { isArchived := true, url := url, archiveUrl := some c.url,
          timestamp := c.timestamp,
          formattedDate := some (formatTimestamp c.timestamp),
          source := "availability_api_with_timestamp", error := none,
          checkUrl := none, timeout := false }
      else
        { isArchived := false, url := url, archiveUrl := none,
          timestamp := none, formattedDate := none,
          source := "availability_api_with_timestamp", error := none,
          checkUrl := some (checkUrlFor url), timeout := false }
    | none =>
      { isArchived := false, url := url, archiveUrl := none,
        timestamp := none, formattedDate := none,
        source := "availability_api_with_timestamp", error := none,
        checkUrl := some (checkUrlFor url), timeout := false }
  | .httpError status => cdxErrorRecord url ("HTTP error " ++ toString status) false
  | .invalidJson msg => cdxErrorRecord url msg false
  | .transportError msg => cdxErrorRecord url msg false
  | .timeout =>
    cdxErrorRecord url
      "Request timed out. The alternative API is responding slowly." true

/-- `WaybackAPI.checkIfArchived` (waybackAPI.js lines 62-73): primary
availability lookup, falling back to the secondary lookup when the first
reports no archive. -/
def checkIfArchived (url : String) (o₁ o₂ : FetchOutcome) : CheckResult :=
  let availabilityResult := checkViaAvailabilityApi url o₁
  if availabilityResult.isArchived then availabilityResult
  else checkViaCdxApi url o₂

/-- Outcome of the single `fetch` of the save endpoint inside
`WaybackAPI.archiveUrl` (no-cors mode, response body never consumed). -/
inductive SaveOutcome where
  | ok
  | transportError (msg : String)
  | timeout
deriving DecidableEq

/-- The object returned by `WaybackAPI.archiveUrl`. -/
structure SubmitResult where
  success : Bool
  url : String
  archiveUrl : Option String
  manualUrl : String
  error : Option String
  timeout : Bool
deriving DecidableEq

/-- The manual save URL `https://web.archive.org/save/${url}`. -/
def saveUrlFor (url : String) : String :=
  "https://web.archive.org/save/" ++ url

/-- `WaybackAPI.archiveUrl` (waybackAPI.js lines 276-335), with the network
outcome passed explicitly.  Success only means the request was dispatched
without a transport error. -/
def archiveUrl (url : String) (o : SaveOutcome) : SubmitResult :=
  match o with
  | .ok =>
    { success := true, url := url, archiveUrl := some (checkUrlFor url),
      manualUrl := saveUrlFor url, error := none, timeout := false }
  | .timeout =>
    { success := false, url := url, archiveUrl := none,
      manualUrl := saveUrlFor url,
      error := some "Request timed out. The archiving process took too long.",
      timeout := true }
  | .transportError msg =>
    { success := false, url := url, archiveUrl := none,
      manualUrl := saveUrlFor url, error := some msg, timeout := false }

/-- The object returned by `WaybackAPI.verifyArchive`. -/
structure VerifyResult where
  success : Bool
  url : String
  verified : Bool
  details : List String
  archiveInfo : Option CheckResult
  manualUrl : Option String
  timeoutIssues : Option Bool
  message : Option String
deriving DecidableEq

/-- The check performed by one iteration of the verification loop
(waybackAPI.js lines 352-358): secondary lookup first, falling back to the
primary availability lookup when it finds nothing. -/
def verifyCheck (url : String) (o : FetchOutcome × FetchOutcome) : CheckResult :=
  let c := checkViaCdxApi url o.1
  if c.isArchived then c else checkViaAvailabilityApi url o.2

/-- The failure result built after the last iteration of
`WaybackAPI.verifyArchive`'s loop (waybackAPI.js lines 386-397). -/
def verifyFail (url : String) (details : List String) (timeoutCount : Nat) :
    VerifyResult :=
  { success := false, url := url, verified := false,
    details := details ++
      ["Verification failed after all attempts. The URL may still be in the archive processing queue."],
    archiveInfo := none, manualUrl := some (checkUrlFor url),
    timeoutIssues := some (timeoutCount > 0),
    message := some "Archive request was sent but verification failed. Check manually later." }

/-- The body of `WaybackAPI.verifyArchive`'s `for` loop (waybackAPI.js lines
344-398), recursing on the number of remaining attempts `k` (the current
attempt is `attempt`, so `attempt < attempts` iff `k > 0` in the successor
case).  `oracle` supplies each attempt's two network outcomes.  Returns the
result object together with the list of delays slept from this point on. -/
def verifyGo (url : String) (oracle : Nat → FetchOutcome × FetchOutcome)
    (attempts : Nat) (delay : ℚ) :
    Nat → Nat → List String → Nat → VerifyResult × List ℚ
  | 0, _, details, timeoutCount => (verifyFail url details timeoutCount, [])
  | k + 1, attempt, details, timeoutCount =>
    let d₁ := details ++
      ["Verification attempt " ++ toString attempt ++ "/" ++ toString attempts ++ "..."]
    let checkResult := verifyCheck url (oracle attempt)
    let tc := if checkResult.timeout then timeoutCount + 1 else timeoutCount
    let d₂ :=
      if checkResult.timeout then
        d₁ ++ ["Attempt " ++ toString attempt ++ " timed out. Will try again."]
      else d₁
    if checkResult.isArchived then
      ({ success := true, url := url, verified := true,
         details := d₂ ++ ["Success! Found archive via " ++ checkResult.source ++ "."],
         archiveInfo := some checkResult, manualUrl := none,
         timeoutIssues := none, message := none },
       [])
    else if k > 0 then
      let currentDelay := if tc > 0 then delay * (3 / 2) else delay
      let d₃ := d₂ ++
        ["No archive found yet, waiting " ++ toString currentDelay ++
          "ms before next attempt..."]
      let rest := verifyGo url oracle attempts delay k (attempt + 1) d₃ tc
      (rest.1, currentDelay :: rest.2)
    else
      (verifyFail url d₂ tc, [])

/-- `WaybackAPI.verifyArchive` (waybackAPI.js lines 344-398), returning the
result object and the list of inter-attempt delays actually slept. -/
def verifyArchive (url : String) (oracle : Nat → FetchOutcome × FetchOutcome)
    (attempts : Nat) (delay : ℚ) : VerifyResult × List ℚ :=
  verifyGo url oracle attempts delay attempts 1 [] 0

/-- The result object handed to `StatusTracker.updateProgress`; the tracker
only reads the (possibly absent, hence defaulted-to-false) `success` and
`warning` fields.  `error` is carried along for the app-level records. -/
structure StatusResult where
  success : Bool
  warning : Bool
  error : Bool
  message : String
deriving DecidableEq

/-- One invocation of the progress callback:
`(progress, processedCount, totalCount)`. -/
structure ProgressEvent where
  progress : ℤ
  processed : Nat
  total : Nat
deriving DecidableEq

/-- One invocation of the ETA callback: `(etaMillis, remainingCount)`. -/
structure EtaEvent where
  etaMillis : ℚ
  remaining : Nat
deriving DecidableEq

/-- The mutable fields of a `StatusTracker` (statusTracker.js).  The
registered callbacks are modelled by the two `has…Callback` flags: `reset`
sets `onProgressUpdate`/`onEtaUpdate` to `null`, i.e. the flags to `false`,
and `setProgressCallback`/`setEtaCallback` set them to `true`. -/
structure TrackerState where
  urls : List String
  processedCount : Nat
  successCount : Nat
  warningCount : Nat
  errorCount : Nat
  results : List StatusResult
  startTime : Option Nat
  isRunning : Bool
  shouldStop : Bool
  avgTimePerUrl : Option ℚ
  hasProgressCallback : Bool
  hasEtaCallback : Bool
deriving DecidableEq

/-- `StatusTracker.reset` (statusTracker.js lines 13-26): note that it also
clears both registered callbacks. -/
def trackerReset : TrackerState :=
  { urls := [], processedCount := 0, successCount := 0, warningCount := 0,
    errorCount := 0, results := [], startTime := none, isRunning := false,
    shouldStop := false, avgTimePerUrl := none, hasProgressCallback := false,
    hasEtaCallback := false }

/-- `StatusTracker.initialize` (statusTracker.js lines 32-43), with
`Date.now()` passed as `now`.  Returns the new state and the progress events
emitted during the call. -/
def trackerInitialize (_s : TrackerState) (now : Nat) (urls : List String) :
    TrackerState × List ProgressEvent :=
  let s₁ := trackerReset
  let s₂ := { s₁ with urls := urls, startTime := some now, isRunning := true,
                      shouldStop := false }
  if s₂.hasProgressCallback then
    (s₂, [{ progress := 0, processed := 0, total := urls.length }])
  else (s₂, [])

/-- JavaScript `Math.round` on the non-negative values arising here:
round half toward positive infinity. -/
def jsRound (q : ℚ) : ℤ :=
  ⌊q + 1 / 2⌋

/-- `StatusTracker.getProgressPercentage` (statusTracker.js lines 82-87). -/
def getProgressPercentage (s : TrackerState) : ℤ :=
  if s.urls.length = 0 then 0
  else
    let percentage := jsRound ((s.processedCount : ℚ) / (s.urls.length : ℚ) * 100)
    max 0 (min 100 percentage)

/-- `StatusTracker.updateEta` (statusTracker.js lines 111-131), with
`Date.now()` passed as `now`.  Returns the new state and the ETA events
emitted. -/
def trackerUpdateEta (s : TrackerState) (now : Nat) :
    TrackerState × List EtaEvent :=
  if s.processedCount = 0 then (s, [])
  else
    let elapsedTime : ℚ := (now : ℚ) - ((s.startTime.getD 0 : Nat) : ℚ)
    let timePerUrl := elapsedTime / (s.processedCount : ℚ)
    let avg :=
      match s.avgTimePerUrl with
      | none => timePerUrl
      | some a => a * (7 / 10) + timePerUrl * (3 / 10)
    let remainingUrls := s.urls.length - s.processedCount
    let eta := avg * (remainingUrls : ℚ)
    let s' := { s with avgTimePerUrl := some avg }
    if s'.hasEtaCallback then
      (s', [{ etaMillis := eta, remaining := remainingUrls }])
    else (s', [])

/-- `StatusTracker.updateProgress` (statusTracker.js lines 49-76), with
`Date.now()` passed as `now`.  Returns the new state and the progress events
emitted (ETA events are internal to `trackerUpdateEta`). -/
def trackerUpdateProgress (s : TrackerState) (now : Nat) (result : StatusResult) :
    TrackerState × List ProgressEvent :=
  let s₁ := { s with processedCount := s.processedCount + 1,
                     results := s.results ++ [result] }
  let s₂ :=
    if result.success then { s₁ with successCount := s₁.successCount + 1 }
    else if result.warning then { s₁ with warningCount := s₁.warningCount + 1 }
    else { s₁ with errorCount := s₁.errorCount + 1 }
  let progress := getProgressPercentage s₂
  let s₃ := (trackerUpdateEta s₂ now).1
  if s₃.hasProgressCallback then
    (s₃, [{ progress := progress, processed := s₃.processedCount,
            total := s₃.urls.length }])
  else (s₃, [])

/-- `StatusTracker.stop` (statusTracker.js lines 152-162).  Returns the new
state and the progress events emitted. -/
def trackerStop (s : TrackerState) : TrackerState × List ProgressEvent :=
  let s₁ := { s with shouldStop := true, isRunning := false }
  if s₁.processedCount > 0 && s₁.hasProgressCallback then
    (s₁, [{ progress := getProgressPercentage s₁,
            processed := s₁.processedCount, total := s₁.urls.length }])
  else (s₁, [])

/-- `StatusTracker.complete` (statusTracker.js lines 167-186).  Returns the
new state, the progress events and the ETA events emitted. -/
def trackerComplete (s : TrackerState) :
    TrackerState × List ProgressEvent × List EtaEvent :=
  let s₁ := { s with isRunning := false }
  let progressEvents :=
    if s₁.hasProgressCallback then
      if s₁.processedCount ≥ s₁.urls.length then
        [{ progress := 100, processed := s₁.processedCount,
           total := s₁.urls.length }]
      else
        [{ progress := getProgressPercentage s₁,
           processed := s₁.processedCount, total := s₁.urls.length }]
    else []
  let etaEvents :=
    if s₁.hasEtaCallback then [{ etaMillis := 0, remaining := 0 }] else []
  (s₁, progressEvents, etaEvents)

/-- One entry of the capture list built by `WaybackAPI.getArchiveHistory`
(waybackAPI.js lines 449-463). -/
structure Capture where
  timestamp : Option String
  formattedDate : String
  originalUrl : String
  statusCode : String
  archiveUrl : String
deriving DecidableEq

/-- The object returned by `WaybackAPI.getArchiveHistory`.  The outer
`catch` shape (`success:false` with an error) is unreachable because every
awaited call sits inside the inner per-timestamp `try`, whose `catch`
continues the loop. -/
structure HistoryResult where
  success : Bool
  url : String
  captureCount : Nat
  captures : List Capture
  error : Option String
deriving DecidableEq

/-- The five query timestamps of `WaybackAPI.getArchiveHistory`
(waybackAPI.js lines 412-418). -/
def historyTimestamps : List String :=
  ["20250101", "20240101", "20230101", "20220101", "20210101"]

/-- The per-timestamp loop of `WaybackAPI.getArchiveHistory` (waybackAPI.js
lines 423-470): a non-ok response, a parse failure, a transport failure or
a timeout skips to the next timestamp; an available snapshot is appended
unless its timestamp is already present. -/
def historyFold (normalizedUrl : String) (oracle : Nat → FetchOutcome) :
    Nat → List String → List Capture → List Capture
  | _, [], captures => captures
  | i, _ :: rest, captures =>
    match oracle i with
    | .ok (some c) =>
      if c.available then
        if captures.any (fun capture => capture.timestamp == c.timestamp) then
          historyFold normalizedUrl oracle (i + 1) rest captures
        else
          historyFold normalizedUrl oracle (i + 1) rest (captures ++
            [{ timestamp := c.timestamp,
               formattedDate := formatTimestamp c.timestamp,
               originalUrl := normalizedUrl, statusCode := "200",
               archiveUrl := c.url }])
      else historyFold normalizedUrl oracle (i + 1) rest captures
    | .ok none => historyFold normalizedUrl oracle (i + 1) rest captures
    | .httpError _ => historyFold normalizedUrl oracle (i + 1) rest captures
    | .invalidJson _ => historyFold normalizedUrl oracle (i + 1) rest captures
    | .transportError _ => historyFold normalizedUrl oracle (i + 1) rest captures
    | .timeout => historyFold normalizedUrl oracle (i + 1) rest captures

/-- `WaybackAPI.getArchiveHistory` (waybackAPI.js lines 405-489).
`normalize` stands for the instance's `normalizeUrl` (backed by the
platform `URL` object); `oracle i` is the availability response for the
`i`-th query timestamp.  The final sort models
`b.timestamp.localeCompare(a.timestamp)` on the 14-digit timestamps as
lexicographic descending order (an absent timestamp compares as empty). -/
def getArchiveHistory (url : String) (normalize : String → String)
    (oracle : Nat → FetchOutcome) : HistoryResult :=
  let normalizedUrl := normalize url
  let captures := historyFold normalizedUrl oracle 0 historyTimestamps []
  let sorted := captures.insertionSort
    (fun a b => (b.timestamp.getD "") ≤ (a.timestamp.getD ""))
  { success := true, url := url, captureCount := sorted.length,
    captures := sorted, error := none }

/-- The remote interactions made for one address by the body of
`WaybackArchiver.processUrls` (app.js). -/
inductive ApiCall where
  | check
  | submit
  | verify
  | history
deriving DecidableEq

/-- The network outcomes consumed while processing one address: the two
status-check outcomes, the save-endpoint outcome, the verification loop's
per-attempt outcomes, and the history lookup's per-timestamp outcomes
(with the platform URL normalizer used by the history lookup). -/
structure UrlOracle where
  checkPrimary : FetchOutcome
  checkSecondary : FetchOutcome
  save : SaveOutcome
  verifyOracle : Nat → FetchOutcome × FetchOutcome
  normalize : String → String
  historyOracle : Nat → FetchOutcome

/-- The per-address body of `WaybackArchiver.processUrls` (app.js lines
187-352): check archive status; if already archived record a success;
otherwise send the archive request (whose result is bound at line 228 but
never inspected), wait 8000ms, verify with 5 attempts and a 3000ms base
delay (line 236), and on success record `Successfully archived`; if
verification fails, fetch the recent archive history as a last resort
(line 263) and record a success (`Found in history`) when it reports any
capture, otherwise a verification-failed warning.  The surrounding `catch`
(terminal `Error` outcome) only fires on an exception, which none of the
called operations produce.  Returns the result recorded via
`updateProgress` and the trace of remote operations performed. -/
def processUrl (url : String) (o : UrlOracle) : StatusResult × List ApiCall :=
  let archiveInfo := checkIfArchived url o.checkPrimary o.checkSecondary
  if archiveInfo.isArchived then
    ({ success := true, warning := false, error := false,
       message := "Already archived" }, [.check])
  else
    let _archiveResult := archiveUrl url o.save
    let verificationResult := (verifyArchive url o.verifyOracle 5 3000).1
    if verificationResult.success then
      ({ success := true, warning := false, error := false,
         message := "Successfully archived" }, [.check, .submit, .verify])
    else
      let historyResult := getArchiveHistory url o.normalize o.historyOracle
      if historyResult.success && historyResult.captureCount > 0 then
        ({ success := true, warning := false, error := false,
           message := "Found in history" }, [.check, .submit, .verify, .history])
      else
        ({ success := false, warning := true, error := false,
           message := "Verification failed" },
         [.check, .submit, .verify, .history])

/-- The components the JavaScript `URL` constructor exposes for a parsed
address, as read by `URLProcessor.normalizeUrlForComparison`. -/
structure UrlParts where
  protocol : String
  hostname : String
  pathname : String
  search : String
  hash : String
deriving DecidableEq

/-- `URLProcessor.normalizeUrlForComparison` (urlProcessor.js lines
112-128), with the platform URL parser passed as `parse` (`none` models a
constructor throw).  The comparison key keeps scheme, lower-cased host with
a leading `www.` stripped, path and query; the fragment (`hash`) is
dropped. -/
def normalizeUrlForComparison (parse : String → Option UrlParts)
    (url : String) : String :=
  match parse url with
  | some u =>
    let hostname := u.hostname.toLower
    let hostname := if hostname.startsWith "www." then hostname.drop 4 else hostname
    u.protocol ++ "//" ++ hostname ++ u.pathname ++ u.search
  | none => url.toLower

/-- One entry of the `duplicates` list of `URLProcessor.findDuplicates`. -/
structure DuplicateEntry where
  originalUrl : String
  duplicateOf : String
deriving DecidableEq

/-- The object returned by `URLProcessor.findDuplicates`. -/
structure DuplicatesResult where
  uniqueUrls : List String
  duplicates : List DuplicateEntry
  hasDuplicates : Bool
deriving DecidableEq

/-- The `seen` map of `URLProcessor.findDuplicates` (a JS `Map` from
normalized key to the first URL carrying it), as an association list. -/
def lookupKey : List (String × String) → String → Option String
  | [], _ => none
  | (k, v) :: rest, q => if q = k then some v else lookupKey rest q

/-- The loop of `URLProcessor.findDuplicates` (urlProcessor.js lines
80-105), threading the `seen` map. -/
def findDuplicatesAux (key : String → String) (seen : List (String × String)) :
    List String → List String × List DuplicateEntry
  | [] => ([], [])
  | url :: rest =>
    let normalizedUrl := key url
    match lookupKey seen normalizedUrl with
    | some first =>
      let r := findDuplicatesAux key seen rest
      (r.1, { originalUrl := url, duplicateOf := first } :: r.2)
    | none =>
      let r := findDuplicatesAux key ((normalizedUrl, url) :: seen) rest
      (url :: r.1, r.2)

/-- `URLProcessor.findDuplicates` (urlProcessor.js lines 80-105): groups by
the normalized comparison key, keeping the first occurrence of each key. -/
def findDuplicates (parse : String → Option UrlParts) (urls : List String) :
    DuplicatesResult :=
  let r := findDuplicatesAux (normalizeUrlForComparison parse) [] urls
  { uniqueUrls := r.1, duplicates := r.2, hasDuplicates := r.2.length > 0 }

/-- Specification-side description of first-occurrence deduplication: keep
each element whose key has not appeared earlier, in input order. -/
def keepFirstByKey (key : String → String) : List String → List String
  | [] => []
  | u :: rest =>
    u :: keepFirstByKey key (rest.filter (fun v => key v != key u))
termination_by l => l.length
decreasing_by
  simp only [List.length_cons]
  exact Nat.lt_succ_of_le (List.length_filter_le _ _)

/-! ## Theorems -/

lemma toList_asString (l : List Char) : l.asString.toList = l := rfl

lemma length_asString (l : List Char) : l.asString.length = l.length := rfl

lemma length_jsSlice (t : String) (a b : Nat) :
    (jsSlice t a b).length = min (b - a) (t.length - a) := by
  rw [jsSlice, length_asString, List.length_take, List.length_drop]
  rfl

lemma jsSlice_of_jsSlice (t : String) (a b : Nat) (h : b ≤ 14) :
    jsSlice (jsSlice t 0 14) a b = jsSlice t a b := by
  unfold jsSlice
  rw [toList_asString]
  congr 1
  rw [Nat.sub_zero, List.drop_zero, List.drop_take, List.take_take,
    Nat.min_def, if_pos (Nat.sub_le_sub_right h a)]

/-- C6: a timestamp of length at least 14 is formatted from its first 14
characters as `YYYY-MM-DD HH:MM:SS` (e.g. `20230615120000` becomes
`2023-06-15 12:00:00`); a `null`, empty, or shorter-than-14 timestamp
yields `Unknown date`, and the formatter is a total function. -/
theorem claim_C6_formatTimestamp (t : String) :
    (14 ≤ t.length → formatTimestamp (some t) = formatTimestamp (some (jsSlice t 0 14))) ∧
    formatTimestamp (some "20230615120000") = "2023-06-15 12:00:00" ∧
    formatTimestamp none = "Unknown date" ∧
    formatTimestamp (some "") = "Unknown date" ∧
    (t.length < 14 → formatTimestamp (some t) = "Unknown date") := by
  refine ⟨?_, by decide, rfl, rfl, ?_⟩
  · intro h
    have hl : (jsSlice t 0 14).length = 14 := by
      rw [length_jsSlice]
      omega
    simp only [formatTimestamp, hl]
    rw [if_neg (by omega), if_neg (by omega)]
    rw [jsSlice_of_jsSlice t 0 4 (by omega), jsSlice_of_jsSlice t 4 6 (by omega),
      jsSlice_of_jsSlice t 6 8 (by omega), jsSlice_of_jsSlice t 8 10 (by omega),
      jsSlice_of_jsSlice t 10 12 (by omega), jsSlice_of_jsSlice t 12 14 (by omega)]
  · intro h
    simp only [formatTimestamp]
    rw [if_pos h]

/-- C6 witness: the theorem applied at the 15-character timestamp
`202306151200005`, whose first 14 characters format as above. -/
theorem claim_C6_formatTimestamp_witness :
    formatTimestamp (some "202306151200005") =
      formatTimestamp (some (jsSlice "202306151200005" 0 14)) :=
  (claim_C6_formatTimestamp "202306151200005").1 (by decide)

/-- A failure collapsed into a record: not archived, an error message, the
timeout flag exactly when the failure was a timeout, and a manual check
URL. -/
def collapsedFailure (url : String) (r : CheckResult) (timedOut : Bool) : Prop :=
  r.isArchived = false ∧ r.error.isSome = true ∧ r.timeout = timedOut ∧
    r.checkUrl = some (checkUrlFor url)

/-- C5: every failure outcome of the underlying lookups (HTTP error status,
malformed response body, transport failure, timeout) is collapsed by both
status checks into an `isArchived:false` record carrying an error message,
the timeout flag exactly for timeouts, and a manual check URL; the
resolver `checkIfArchived` never raises — for every pair of outcomes it
returns one of the two lookups' records. -/
theorem claim_C5_resolver_failure_collapse (url msg : String) (status : Nat)
    (o₁ o₂ : FetchOutcome) :
    collapsedFailure url (checkViaAvailabilityApi url .timeout) true ∧
    collapsedFailure url (checkViaAvailabilityApi url (.httpError status)) false ∧
    collapsedFailure url (checkViaAvailabilityApi url (.invalidJson msg)) false ∧
    collapsedFailure url (checkViaAvailabilityApi url (.transportError msg)) false ∧
    collapsedFailure url (checkViaCdxApi url .timeout) true ∧
    collapsedFailure url (checkViaCdxApi url (.httpError status)) false ∧
    collapsedFailure url (checkViaCdxApi url (.invalidJson msg)) false ∧
    collapsedFailure url (checkViaCdxApi url (.transportError msg)) false ∧
    (checkIfArchived url o₁ o₂ = checkViaAvailabilityApi url o₁ ∨
      checkIfArchived url o₁ o₂ = checkViaCdxApi url o₂) := by
  refine ⟨⟨rfl, rfl, rfl, rfl⟩, ⟨rfl, rfl, rfl, rfl⟩, ⟨rfl, rfl, rfl, rfl⟩,
    ⟨rfl, rfl, rfl, rfl⟩, ⟨rfl, rfl, rfl, rfl⟩, ⟨rfl, rfl, rfl, rfl⟩,
    ⟨rfl, rfl, rfl, rfl⟩, ⟨rfl, rfl, rfl, rfl⟩, ?_⟩
  by_cases h : (checkViaAvailabilityApi url o₁).isArchived
  · exact Or.inl (by simp [checkIfArchived, h])
  · exact Or.inr (by simp [checkIfArchived, h])

lemma trackerUpdateEta_state (s : TrackerState) (now : Nat) :
    ∃ a, (trackerUpdateEta s now).1 = { s with avgTimePerUrl := a } := by
  unfold trackerUpdateEta
  by_cases h : s.processedCount = 0
  · rw [if_pos h]
    exact ⟨s.avgTimePerUrl, rfl⟩
  · rw [if_neg h]
    dsimp only
    by_cases h₂ : s.hasEtaCallback
    · rw [if_pos h₂]
      exact ⟨_, rfl⟩
    · rw [if_neg h₂]
      exact ⟨_, rfl⟩

lemma trackerUpdateProgress_state (s : TrackerState) (now : Nat) (r : StatusResult) :
    ∃ a, (trackerUpdateProgress s now r).1 =
      { s with processedCount := s.processedCount + 1,
               results := s.results ++ [r],
               successCount := s.successCount + (if r.success then 1 else 0),
               warningCount :=
                 s.warningCount + (if ¬r.success = true ∧ r.warning then 1 else 0),
               errorCount :=
                 s.errorCount + (if ¬r.success = true ∧ ¬r.warning = true then 1 else 0),
               avgTimePerUrl := a } := by
  unfold trackerUpdateProgress
  dsimp only
  by_cases h₁ : r.success
  · simp only [h₁, if_true]
    obtain ⟨a, ha⟩ := trackerUpdateEta_state
      { s with processedCount := s.processedCount + 1, results := s.results ++ [r],
               successCount := s.successCount + 1 } now
    refine ⟨a, ?_⟩
    rw [apply_ite Prod.fst]
    dsimp only
    rw [ite_self, ha]
    simp [h₁]
  · by_cases h₂ : r.warning
    · simp only [h₁, h₂, if_false, if_true, Bool.false_eq_true]
      obtain ⟨a, ha⟩ := trackerUpdateEta_state
        { s with processedCount := s.processedCount + 1, results := s.results ++ [r],
                 warningCount := s.warningCount + 1 } now
      refine ⟨a, ?_⟩
      rw [apply_ite Prod.fst]
      dsimp only
      rw [ite_self, ha]
      simp [h₁, h₂]
    · simp only [h₁, h₂, if_false, Bool.false_eq_true]
      obtain ⟨a, ha⟩ := trackerUpdateEta_state
        { s with processedCount := s.processedCount + 1, results := s.results ++ [r],
                 errorCount := s.errorCount + 1 } now
      refine ⟨a, ?_⟩
      rw [apply_ite Prod.fst]
      dsimp only
      rw [ite_self, ha]
      simp [h₁, h₂]

lemma trackerUpdateProgress_fields (s : TrackerState) (now : Nat) (r : StatusResult) :
    (trackerUpdateProgress s now r).1.urls = s.urls ∧
    (trackerUpdateProgress s now r).1.processedCount = s.processedCount + 1 ∧
    (trackerUpdateProgress s now r).1.results = s.results ++ [r] ∧
    (trackerUpdateProgress s now r).1.successCount + (trackerUpdateProgress s now r).1.warningCount +
        (trackerUpdateProgress s now r).1.errorCount =
      s.successCount + s.warningCount + s.errorCount + 1 := by
  obtain ⟨a, ha⟩ := trackerUpdateProgress_state s now r
  rw [ha]
  refine ⟨rfl, rfl, rfl, ?_⟩
  by_cases h₁ : r.success <;> by_cases h₂ : r.warning <;> simp [h₁, h₂] <;> ring

lemma getProgressPercentage_nonneg (s : TrackerState) :
    0 ≤ getProgressPercentage s := by
  unfold getProgressPercentage
  split
  · exact le_refl 0
  · exact le_max_left 0 _

lemma getProgressPercentage_le_100 (s : TrackerState) :
    getProgressPercentage s ≤ 100 := by
  unfold getProgressPercentage
  split
  · norm_num
  · exact max_le (by norm_num) (min_le_left 100 _)

lemma getProgressPercentage_mono {s s' : TrackerState} (hu : s'.urls = s.urls)
    (hp : s.processedCount ≤ s'.processedCount) :
    getProgressPercentage s ≤ getProgressPercentage s' := by
  unfold getProgressPercentage
  rw [hu]
  by_cases h : s.urls.length = 0
  · simp [h]
  · rw [if_neg h, if_neg h]
    refine max_le_max (le_refl 0) (min_le_min (le_refl 100) ?_)
    unfold jsRound
    apply Int.floor_le_floor
    have hL : (0 : ℚ) < (s.urls.length : ℚ) := by
      exact_mod_cast Nat.pos_of_ne_zero h
    have : ((s.processedCount : ℚ)) ≤ ((s'.processedCount : ℚ)) := by exact_mod_cast hp
    gcongr

/-- C8: within one run the reported progress percentage is monotonically
non-decreasing across outcome recordings and is always an integer in
`[0, 100]`. -/
theorem claim_C8_progress_monotone (s : TrackerState) (now : Nat) (r : StatusResult) :
    getProgressPercentage s ≤ getProgressPercentage (trackerUpdateProgress s now r).1 ∧
    0 ≤ getProgressPercentage s ∧ getProgressPercentage s ≤ 100 := by
  obtain ⟨hu, hp, _, _⟩ := trackerUpdateProgress_fields s now r
  exact ⟨getProgressPercentage_mono hu (by omega),
    getProgressPercentage_nonneg s, getProgressPercentage_le_100 s⟩

/-- Iterated outcome recording: fold `updateProgress` over a list of
`(Date.now(), result)` pairs. -/
def recordAll (s : TrackerState) (steps : List (Nat × StatusResult)) : TrackerState :=
  steps.foldl (fun t p => (trackerUpdateProgress t p.1 p.2).1) s

lemma recordAll_invariant (steps : List (Nat × StatusResult)) :
    ∀ s : TrackerState,
      s.successCount + s.warningCount + s.errorCount = s.processedCount →
      s.processedCount = s.results.length →
      (recordAll s steps).successCount + (recordAll s steps).warningCount +
          (recordAll s steps).errorCount = (recordAll s steps).processedCount ∧
        (recordAll s steps).processedCount = (recordAll s steps).results.length := by
  induction steps with
  | nil => intro s h₁ h₂; exact ⟨h₁, h₂⟩
  | cons step rest ih =>
    intro s h₁ h₂
    obtain ⟨_, hp, hr, hsum⟩ := trackerUpdateProgress_fields s step.1 step.2
    refine ih _ ?_ ?_
    · rw [hsum, hp, h₁]
    · rw [hp, hr, h₂, List.length_append, List.length_singleton]

/-- C10: after any sequence of outcome recordings that started from
`initialize`, the per-outcome counters partition the processed count
(`success + warning + error = processed = results.length`), and each single
recording increments the counter total and the results log by exactly one. -/
theorem claim_C10_counters_partition (s₀ : TrackerState) (now : Nat)
    (urls : List String) (steps : List (Nat × StatusResult))
    (t : TrackerState) (now' : Nat) (r : StatusResult) :
    ((recordAll (trackerInitialize s₀ now urls).1 steps).successCount +
        (recordAll (trackerInitialize s₀ now urls).1 steps).warningCount +
        (recordAll (trackerInitialize s₀ now urls).1 steps).errorCount =
      (recordAll (trackerInitialize s₀ now urls).1 steps).processedCount ∧
      (recordAll (trackerInitialize s₀ now urls).1 steps).processedCount =
        (recordAll (trackerInitialize s₀ now urls).1 steps).results.length) ∧
    (trackerUpdateProgress t now' r).1.successCount +
        (trackerUpdateProgress t now' r).1.warningCount +
        (trackerUpdateProgress t now' r).1.errorCount =
      t.successCount + t.warningCount + t.errorCount + 1 ∧
    (trackerUpdateProgress t now' r).1.results.length = t.results.length + 1 := by
  obtain ⟨_, _, hr, hsum⟩ := trackerUpdateProgress_fields t now' r
  refine ⟨recordAll_invariant steps _ rfl rfl, hsum, ?_⟩
  rw [hr, List.length_append, List.length_singleton]

/-- C2 (exhibiting the divergence): `initialize` does reset the run state,
stamp the start time and set the running/stop flags, but it never invokes
the progress callback: the `reset()` it performs first clears the
registered callback, so the 0%-emission guard is always false and the list
of emitted progress events is empty for every prior state, including one
with a registered callback. -/
theorem claim_C2_initialize_emits_nothing (s : TrackerState) (now : Nat)
    (urls : List String) :
    (trackerInitialize s now urls).2 = [] ∧
    (trackerInitialize s now urls).1.urls = urls ∧
    (trackerInitialize s now urls).1.processedCount = 0 ∧
    (trackerInitialize s now urls).1.successCount = 0 ∧
    (trackerInitialize s now urls).1.warningCount = 0 ∧
    (trackerInitialize s now urls).1.errorCount = 0 ∧
    (trackerInitialize s now urls).1.results = [] ∧
    (trackerInitialize s now urls).1.startTime = some now ∧
    (trackerInitialize s now urls).1.isRunning = true ∧
    (trackerInitialize s now urls).1.shouldStop = false ∧
    (trackerInitialize s now urls).1.hasProgressCallback = false :=
  ⟨rfl, rfl, rfl, rfl, rfl, rfl, rfl, rfl, rfl, rfl, rfl⟩

/-- C9 counterexample: with a registered progress callback but zero
processed addresses, `stop` emits no final snapshot at all (the claim says
calling stop emits a final progress snapshot, and that in every state at
least one final snapshot is emitted by stop or complete). -/
theorem claim_C9_counterexample :
    (trackerStop
      { urls := ["https://example.com"], processedCount := 0, successCount := 0,
        warningCount := 0, errorCount := 0, results := [], startTime := some 0,
        isRunning := true, shouldStop := false, avgTimePerUrl := none,
        hasProgressCallback := true, hasEtaCallback := true }).2 = [] := rfl

/-- C9 (amended): with a registered progress callback, `stop` emits the
actual-progress snapshot exactly when at least one address has been
processed (and emits nothing when none has), and `complete` always emits
exactly one snapshot, reporting 100% when every address was processed and
the actual percentage otherwise. -/
theorem claim_C9_final_snapshots (s : TrackerState)
    (h : s.hasProgressCallback = true) :
    (0 < s.processedCount →
      (trackerStop s).2 = [{ progress := getProgressPercentage s,
                             processed := s.processedCount,
                             total := s.urls.length }]) ∧
    (s.processedCount = 0 → (trackerStop s).2 = []) ∧
    (trackerComplete s).2.1 =
      [{ progress := if s.urls.length ≤ s.processedCount then 100
                     else getProgressPercentage s,
         processed := s.processedCount, total := s.urls.length }] := by
  refine ⟨?_, ?_, ?_⟩
  · intro hp
    unfold trackerStop
    dsimp only
    rw [if_pos]
    · rfl
    · simp [h, hp]
  · intro hp
    unfold trackerStop
    dsimp only
    rw [if_neg]
    simp [hp]
  · unfold trackerComplete
    dsimp only
    rw [if_pos h]
    by_cases hc : s.urls.length ≤ s.processedCount
    · rw [if_pos hc, if_pos hc]
    · rw [if_neg hc, if_neg hc]
      rfl

/-- C9 witness: stop after 2 of 5 addresses (callback registered) emits
exactly one snapshot `processed=2,total=5` at 40%, not 100%. -/
theorem claim_C9_final_snapshots_witness :
    (trackerStop
      { urls := ["https://a.example", "https://b.example", "https://c.example",
                 "https://d.example", "https://e.example"],
        processedCount := 2, successCount := 2, warningCount := 0,
        errorCount := 0, results := [], startTime := some 0, isRunning := true,
        shouldStop := false, avgTimePerUrl := none, hasProgressCallback := true,
        hasEtaCallback := false }).2 =
      [{ progress := 40, processed := 2, total := 5 }] := by
  have h := (claim_C9_final_snapshots
      { urls := ["https://a.example", "https://b.example", "https://c.example",
                 "https://d.example", "https://e.example"],
        processedCount := 2, successCount := 2, warningCount := 0,
        errorCount := 0, results := [], startTime := some 0, isRunning := true,
        shouldStop := false, avgTimePerUrl := none, hasProgressCallback := true,
        hasEtaCallback := false } rfl).1 (by norm_num)
  rw [h]
  norm_num [getProgressPercentage, jsRound]

/-- C1 counterexample: an address whose submission times out
(`archiveUrl` returns a non-accepted, timed-out outcome) does not move to
the terminal `Error` state and verification is still attempted: with the
first verification check finding an archive, the address is recorded as a
plain success, with no error flag. -/
theorem claim_C1_counterexample :
    (archiveUrl "https://example.com" .timeout).success = false ∧
    (archiveUrl "https://example.com" .timeout).timeout = true ∧
    (processUrl "https://example.com"
        { checkPrimary := .ok none, checkSecondary := .ok none, save := .timeout,
          verifyOracle := fun _ =>
            (.ok (some { available := true,
                         url := "https://web.archive.org/web/20230615120000/https://example.com",
                         timestamp := some "20230615120000" }),
             .ok none),
          normalize := fun u => u,
          historyOracle := fun _ => .ok none }).2 = [.check, .submit, .verify] ∧
    (processUrl "https://example.com"
        { checkPrimary := .ok none, checkSecondary := .ok none, save := .timeout,
          verifyOracle := fun _ =>
            (.ok (some { available := true,
                         url := "https://web.archive.org/web/20230615120000/https://example.com",
                         timestamp := some "20230615120000" }),
             .ok none),
          normalize := fun u => u,
          historyOracle := fun _ => .ok none }).1.error = false ∧
    (processUrl "https://example.com"
        { checkPrimary := .ok none, checkSecondary := .ok none, save := .timeout,
          verifyOracle := fun _ =>
            (.ok (some { available := true,
                         url := "https://web.archive.org/web/20230615120000/https://example.com",
                         timestamp := some "20230615120000" }),
             .ok none),
          normalize := fun u => u,
          historyOracle := fun _ => .ok none }).1.message = "Successfully archived" := by
  refine ⟨rfl, rfl, ?_, ?_, ?_⟩ <;> decide

/-- C1 (amended): the submission outcome is ignored by the per-address
state machine: whenever the status check reports the address not yet
archived, processing performs exactly one submission (never retried) and
always proceeds to verification (5 attempts, 3000ms base delay) regardless
of the submission outcome; the terminal outcome is never `Error` — it is a
success when verification succeeds, and otherwise a history lookup runs as
a last resort, yielding a success when it reports any capture and a
verification-failed warning when it does not. -/
theorem claim_C1_submission_outcome_ignored (url : String) (o : UrlOracle)
    (h : (checkIfArchived url o.checkPrimary o.checkSecondary).isArchived = false) :
    (processUrl url o).2.count .submit = 1 ∧
    ApiCall.verify ∈ (processUrl url o).2 ∧
    (processUrl url o).1.error = false ∧
    (processUrl url o).1.success =
      ((verifyArchive url o.verifyOracle 5 3000).1.success ||
        ((getArchiveHistory url o.normalize o.historyOracle).success &&
          decide ((getArchiveHistory url o.normalize o.historyOracle).captureCount > 0))) ∧
    (processUrl url o).1.warning =
      !((verifyArchive url o.verifyOracle 5 3000).1.success ||
        ((getArchiveHistory url o.normalize o.historyOracle).success &&
          decide ((getArchiveHistory url o.normalize o.historyOracle).captureCount > 0))) ∧
    ((verifyArchive url o.verifyOracle 5 3000).1.success = true →
      (processUrl url o).2 = [.check, .submit, .verify]) ∧
    ((verifyArchive url o.verifyOracle 5 3000).1.success = false →
      (processUrl url o).2 = [.check, .submit, .verify, .history]) := by
  unfold processUrl
  rw [if_neg (by simp [h])]
  dsimp only
  by_cases hv : (verifyArchive url o.verifyOracle 5 3000).1.success
  · rw [if_pos hv]
    refine ⟨rfl, by simp, rfl, by simp [hv], by simp [hv], fun _ => rfl, fun hc => ?_⟩
    rw [hv] at hc
    exact absurd hc (by simp)
  · rw [if_neg hv]
    have hv' : (verifyArchive url o.verifyOracle 5 3000).1.success = false :=
      Bool.not_eq_true _ ▸ eq_false_of_ne_true hv
    by_cases hh : (getArchiveHistory url o.normalize o.historyOracle).success &&
        decide ((getArchiveHistory url o.normalize o.historyOracle).captureCount > 0)
    · rw [if_pos hh]
      exact ⟨rfl, by simp, rfl, by simp [hv', hh], by simp [hv', hh],
        fun hc => absurd hc hv, fun _ => rfl⟩
    · rw [if_neg hh]
      have hh' : ((getArchiveHistory url o.normalize o.historyOracle).success &&
          decide ((getArchiveHistory url o.normalize o.historyOracle).captureCount > 0)) = false :=
        Bool.not_eq_true _ ▸ eq_false_of_ne_true hh
      exact ⟨rfl, by simp, rfl, by simp [hv', hh'], by simp [hv', hh'],
        fun hc => absurd hc hv, fun _ => rfl⟩

/-- C1 witness: the amended theorem applied at a concrete oracle whose
submission times out and whose first verification check succeeds. -/
theorem claim_C1_submission_outcome_ignored_witness :
    (processUrl "https://example.com"
        { checkPrimary := .ok none, checkSecondary := .ok none, save := .timeout,
          verifyOracle := fun _ =>
            (.ok (some { available := true,
                         url := "https://web.archive.org/web/20230615120000/https://example.com",
                         timestamp := some "20230615120000" }),
             .ok none),
          normalize := fun u => u,
          historyOracle := fun _ => .ok none }).2.count .submit = 1 :=
  (claim_C1_submission_outcome_ignored "https://example.com"
    { checkPrimary := .ok none, checkSecondary := .ok none, save := .timeout,
      verifyOracle := fun _ =>
        (.ok (some { available := true,
                     url := "https://web.archive.org/web/20230615120000/https://example.com",
                     timestamp := some "20230615120000" }),
         .ok none),
      normalize := fun u => u,
      historyOracle := fun _ => .ok none } rfl).1

/-- C3 counterexample: with `maxAttempts=3`, all three checks reporting
`isArchived:false` and no timeouts, `verifyArchive` does return
`verified:false` with no archive record, but its returned log has 6 lines
(three attempt headers, two waiting lines, one final failure line), not 3. -/
theorem claim_C3_counterexample :
    (verifyArchive "https://example.com" (fun _ => (.ok none, .ok none)) 3 2000).1.verified
        = false ∧
    (verifyArchive "https://example.com" (fun _ => (.ok none, .ok none)) 3 2000).1.archiveInfo
        = none ∧
    (verifyArchive "https://example.com" (fun _ => (.ok none, .ok none)) 3 2000).1.details.length
        = 6 ∧
    ¬ (verifyArchive "https://example.com" (fun _ => (.ok none, .ok none)) 3 2000).1.details.length
        = 3 := by
  refine ⟨rfl, rfl, by decide, by decide⟩

lemma verifyGo_allFail (url : String) (oracle : Nat → FetchOutcome × FetchOutcome)
    (attempts : Nat) (delay : ℚ)
    (H : ∀ i, (verifyCheck url (oracle i)).isArchived = false ∧
      (verifyCheck url (oracle i)).timeout = false) :
    ∀ k attempt details tc,
      (verifyGo url oracle attempts delay k attempt details tc).1.verified = false ∧
      (verifyGo url oracle attempts delay k attempt details tc).1.archiveInfo = none ∧
      (verifyGo url oracle attempts delay k attempt details tc).1.details.length =
        details.length + (if k = 0 then 1 else 2 * k) := by
  intro k
  induction k with
  | zero =>
    intro attempt details tc
    refine ⟨rfl, rfl, ?_⟩
    simp [verifyGo, verifyFail]
  | succ k ih =>
    intro attempt details tc
    obtain ⟨ha, ht⟩ := H attempt
    unfold verifyGo
    dsimp only
    rw [ht, ha]
    simp only [Bool.false_eq_true, if_false]
    rcases Nat.eq_zero_or_pos k with hk | hk
    · subst hk
      simp [verifyFail]
    · rw [if_pos hk]
      dsimp only
      refine ⟨(ih _ _ _).1, (ih _ _ _).2.1, ?_⟩
      rw [(ih (attempt + 1) _ tc).2.2]
      rw [if_neg (show ¬ k = 0 by omega), if_neg (show ¬ k + 1 = 0 by omega)]
      simp only [List.length_append, List.length_singleton]
      omega

/-- C3 (amended): if every status check inside the verification loop
reports not archived (with no timeouts), `verifyArchive` returns
`verified:false` with no archive record, and the returned log has one
header line per attempt, one waiting line per non-final attempt, and one
final failure line — `2 * maxAttempts` lines in total, hence 6 (not 3)
for `maxAttempts=3`. -/
theorem claim_C3_verify_exhaustion_log (url : String)
    (oracle : Nat → FetchOutcome × FetchOutcome) (attempts : Nat) (delay : ℚ)
    (H : ∀ i, (verifyCheck url (oracle i)).isArchived = false ∧
      (verifyCheck url (oracle i)).timeout = false)
    (hat : 1 ≤ attempts) :
    (verifyArchive url oracle attempts delay).1.verified = false ∧
    (verifyArchive url oracle attempts delay).1.archiveInfo = none ∧
    (verifyArchive url oracle attempts delay).1.details.length = 2 * attempts := by
  obtain ⟨h₁, h₂, h₃⟩ := verifyGo_allFail url oracle attempts delay H attempts 1 [] 0
  refine ⟨h₁, h₂, ?_⟩
  show (verifyGo url oracle attempts delay attempts 1 [] 0).1.details.length = 2 * attempts
  rw [h₃]
  simp only [List.length_nil, Nat.zero_add, if_neg (by omega : ¬ attempts = 0)]

/-- C3 witness: the amended theorem applied at `maxAttempts=3` with all
checks failing cleanly yields a 6-line log. -/
theorem claim_C3_verify_exhaustion_log_witness :
    (verifyArchive "https://example.com" (fun _ => (.ok none, .ok none)) 3 2000).1.details.length
      = 2 * 3 :=
  (claim_C3_verify_exhaustion_log "https://example.com"
    (fun _ => (.ok none, .ok none)) 3 2000 (fun _ => ⟨rfl, rfl⟩) (by norm_num)).2.2

/-- Whether the combined check of a given verification attempt recorded a
timeout. -/
def attemptTimedOut (url : String) (oracle : Nat → FetchOutcome × FetchOutcome)
    (i : Nat) : Bool :=
  (verifyCheck url (oracle i)).timeout

/-- Number of verification attempts among attempts `1..m` whose combined
check recorded a timeout. -/
def timeoutsThrough (url : String) (oracle : Nat → FetchOutcome × FetchOutcome) :
    Nat → Nat
  | 0 => 0
  | m + 1 =>
    timeoutsThrough url oracle m + (if attemptTimedOut url oracle (m + 1) then 1 else 0)

lemma timeoutsThrough_mono (url : String)
    (oracle : Nat → FetchOutcome × FetchOutcome) {m n : Nat} (h : m ≤ n) :
    timeoutsThrough url oracle m ≤ timeoutsThrough url oracle n := by
  induction n with
  | zero => simp_all
  | succ n ih =>
    rcases Nat.lt_or_ge m (n + 1) with h' | h'
    · exact le_trans (ih (by omega)) (by rw [timeoutsThrough]; omega)
    · have : m = n + 1 := by omega
      subst this
      exact le_refl _

/-- The skeleton of the delays slept by the verification loop: same control
flow as `verifyGo`, carrying only the timeout counter. -/
def waitsGo (url : String) (oracle : Nat → FetchOutcome × FetchOutcome)
    (delay : ℚ) : Nat → Nat → Nat → List ℚ
  | 0, _, _ => []
  | k + 1, attempt, timeoutCount =>
    let checkResult := verifyCheck url (oracle attempt)
    let tc := if checkResult.timeout then timeoutCount + 1 else timeoutCount
    if checkResult.isArchived then []
    else if k > 0 then
      (if tc > 0 then delay * (3 / 2) else delay) :: waitsGo url oracle delay k (attempt + 1) tc
    else []

lemma verifyGo_snd_eq (url : String) (oracle : Nat → FetchOutcome × FetchOutcome)
    (attempts : Nat) (delay : ℚ) :
    ∀ k attempt details tc,
      (verifyGo url oracle attempts delay k attempt details tc).2 =
        waitsGo url oracle delay k attempt tc := by
  intro k
  induction k with
  | zero => intro attempt details tc; rfl
  | succ k ih =>
    intro attempt details tc
    unfold verifyGo waitsGo
    dsimp only
    by_cases hb : (verifyCheck url (oracle attempt)).isArchived
    · rw [if_pos hb, if_pos hb]
    · rw [if_neg hb, if_neg hb]
      rcases Nat.eq_zero_or_pos k with hk | hk
      · subst hk
        rw [if_neg (show ¬ ((0 : Nat) > 0) by omega),
          if_neg (show ¬ ((0 : Nat) > 0) by omega)]
      · rw [if_pos hk, if_pos hk]
        dsimp only
        rw [ih]

lemma waitsGo_get (url : String) (oracle : Nat → FetchOutcome × FetchOutcome)
    (delay : ℚ) :
    ∀ k a tc, tc = timeoutsThrough url oracle a →
      ∀ j (h : j < (waitsGo url oracle delay k (a + 1) tc).length),
        (waitsGo url oracle delay k (a + 1) tc).get ⟨j, h⟩ =
          if 0 < timeoutsThrough url oracle (a + 1 + j) then delay * (3 / 2) else delay := by
  intro k
  induction k with
  | zero => intro a tc _ j h; simp [waitsGo] at h
  | succ k ih =>
    intro a tc htc j h
    have htc' :
        (if (verifyCheck url (oracle (a + 1))).timeout = true then tc + 1 else tc) =
          timeoutsThrough url oracle (a + 1) := by
      rw [htc, timeoutsThrough, attemptTimedOut]
      by_cases hct : (verifyCheck url (oracle (a + 1))).timeout <;> simp [hct]
    have hgo : waitsGo url oracle delay (k + 1) (a + 1) tc =
        (if (verifyCheck url (oracle (a + 1))).isArchived then []
         else if k > 0 then
           (if (if (verifyCheck url (oracle (a + 1))).timeout = true then tc + 1 else tc) > 0
             then delay * (3 / 2) else delay) ::
             waitsGo url oracle delay k (a + 1 + 1)
               (if (verifyCheck url (oracle (a + 1))).timeout = true then tc + 1 else tc)
         else []) := rfl
    by_cases hb : (verifyCheck url (oracle (a + 1))).isArchived
    · exfalso
      rw [hgo, if_pos hb] at h
      simp at h
    · rcases Nat.eq_zero_or_pos k with hk | hk
      · exfalso
        subst hk
        rw [hgo, if_neg hb, if_neg (by omega)] at h
        simp at h
      · have hcons : waitsGo url oracle delay (k + 1) (a + 1) tc =
            (if (if (verifyCheck url (oracle (a + 1))).timeout = true then tc + 1 else tc) > 0
              then delay * (3 / 2) else delay) ::
              waitsGo url oracle delay k (a + 1 + 1)
                (if (verifyCheck url (oracle (a + 1))).timeout = true then tc + 1 else tc) := by
          rw [hgo, if_neg hb, if_pos hk]
        rw [List.get_of_eq hcons ⟨j, h⟩]
        cases j with
        | zero =>
          show (if (if (verifyCheck url (oracle (a + 1))).timeout = true then tc + 1 else tc) > 0
                then delay * (3 / 2) else delay) = _
          rw [htc']
        | succ j =>
          have hj : j + 1 < ((if (if (verifyCheck url (oracle (a + 1))).timeout = true
                then tc + 1 else tc) > 0 then delay * (3 / 2) else delay) ::
              waitsGo url oracle delay k (a + 1 + 1)
                (if (verifyCheck url (oracle (a + 1))).timeout = true then tc + 1 else tc)).length :=
            hcons ▸ h
          have hj' : j < (waitsGo url oracle delay k (a + 1 + 1)
              (if (verifyCheck url (oracle (a + 1))).timeout = true then tc + 1 else tc)).length := by
            simpa [Nat.succ_lt_succ_iff] using hj
          show (waitsGo url oracle delay k (a + 1 + 1)
              (if (verifyCheck url (oracle (a + 1))).timeout = true then tc + 1 else tc)).get
              ⟨j, hj'⟩ = _
          rw [ih (a + 1)
            (if (verifyCheck url (oracle (a + 1))).timeout = true then tc + 1 else tc)
            htc' j hj']
          rw [show a + 1 + 1 + j = a + 1 + (j + 1) from by omega]

/-- C4: within one verification run, the `j`-th inter-attempt delay (the
wait after attempt `j+1`) equals `baseDelayMs` while no attempt so far has
recorded a timeout, and equals `baseDelayMs * 1.5` as soon as any attempt
up to and including attempt `j+1` has; the escalation is sticky — once some
earlier wait was escalated, every later wait of the run is too. -/
theorem claim_C4_sticky_backoff (url : String)
    (oracle : Nat → FetchOutcome × FetchOutcome) (attempts : Nat) (delay : ℚ)
    (j : Nat) (h : j < (verifyArchive url oracle attempts delay).2.length) :
    (verifyArchive url oracle attempts delay).2.get ⟨j, h⟩ =
      (if 0 < timeoutsThrough url oracle (j + 1) then delay * (3 / 2) else delay) ∧
    (∀ i, i ≤ j → 0 < timeoutsThrough url oracle (i + 1) →
      (verifyArchive url oracle attempts delay).2.get ⟨j, h⟩ = delay * (3 / 2)) := by
  have hsnd := verifyGo_snd_eq url oracle attempts delay attempts 1 [] 0
  have h' : j < (waitsGo url oracle delay attempts 1 0).length := by
    rw [← hsnd]
    exact h
  have main := waitsGo_get url oracle delay attempts 0 0 rfl j h'
  rw [show (0 : Nat) + 1 + j = j + 1 from by omega] at main
  have hval : (verifyArchive url oracle attempts delay).2.get ⟨j, h⟩ =
      if 0 < timeoutsThrough url oracle (j + 1) then delay * (3 / 2) else delay := by
    show (verifyGo url oracle attempts delay attempts 1 [] 0).2.get ⟨j, h⟩ =
      if 0 < timeoutsThrough url oracle (j + 1) then delay * (3 / 2) else delay
    rw [List.get_of_eq hsnd ⟨j, h⟩]
    exact main
  refine ⟨hval, ?_⟩
  intro i hij hpos
  rw [hval, if_pos (lt_of_lt_of_le hpos (timeoutsThrough_mono url oracle (by omega)))]

/-- C4 witness: with attempt 1 timing out and three attempts, the second
inter-attempt wait (after attempt 2, which did not time out) is still the
escalated `2000 * 1.5`. -/
theorem claim_C4_sticky_backoff_witness :
    (verifyArchive "https://example.com"
        (fun i => if i = 1 then (.timeout, .timeout) else (.ok none, .ok none))
        3 2000).2.get ⟨1, by decide⟩ = 2000 * (3 / 2) := by
  have h := (claim_C4_sticky_backoff "https://example.com"
      (fun i => if i = 1 then (.timeout, .timeout) else (.ok none, .ok none))
      3 2000 1 (by decide)).2
  exact h 0 (by omega) (by decide)

lemma findDuplicatesAux_fst (key : String → String) :
    ∀ (urls : List String) (seen : List (String × String)),
      (findDuplicatesAux key seen urls).1 =
        keepFirstByKey key (urls.filter fun u => (lookupKey seen (key u)).isNone) := by
  intro urls
  induction urls with
  | nil => intro seen; simp [findDuplicatesAux, keepFirstByKey]
  | cons u rest ih =>
    intro seen
    rw [findDuplicatesAux]
    dsimp only
    rcases hseen : lookupKey seen (key u) with _ | first
    · dsimp only
      rw [List.filter_cons, if_pos (by simp [hseen]), keepFirstByKey,
        ih ((key u, u) :: seen)]
      congr 1
      rw [List.filter_filter]
      apply congrArg
      apply List.filter_congr
      intro v _
      rw [lookupKey]
      by_cases hkv : key v = key u
      · simp [hkv]
      · simp [hkv]
    · dsimp only
      rw [List.filter_cons, if_neg (by simp [hseen])]
      exact ih seen

lemma keepFirstByKey_sublist (key : String → String) :
    ∀ (n : Nat) (l : List String), l.length ≤ n → List.Sublist (keepFirstByKey key l) l := by
  intro n
  induction n with
  | zero =>
    intro l h
    rw [List.eq_nil_of_length_eq_zero (Nat.le_zero.mp h)]
    simp [keepFirstByKey]
  | succ n ih =>
    intro l h
    cases l with
    | nil => simp [keepFirstByKey]
    | cons u rest =>
      rw [keepFirstByKey]
      refine List.Sublist.cons₂ u ?_
      refine List.Sublist.trans (ih _ ?_) (List.filter_sublist rest)
      have := List.length_filter_le (fun v => key v != key u) rest
      simp only [List.length_cons] at h
      omega

lemma keepFirstByKey_pairwise (key : String → String) :
    ∀ (n : Nat) (l : List String), l.length ≤ n →
      (keepFirstByKey key l).Pairwise (fun a b => key a ≠ key b) := by
  intro n
  induction n with
  | zero =>
    intro l h
    rw [List.eq_nil_of_length_eq_zero (Nat.le_zero.mp h)]
    simp [keepFirstByKey]
  | succ n ih =>
    intro l h
    cases l with
    | nil => simp [keepFirstByKey]
    | cons u rest =>
      rw [keepFirstByKey]
      have hlen : (rest.filter fun v => key v != key u).length ≤ n := by
        have := List.length_filter_le (fun v => key v != key u) rest
        simp only [List.length_cons] at h
        omega
      refine List.Pairwise.cons ?_ (ih _ hlen)
      intro b hb
      have hmem : b ∈ rest.filter fun v => key v != key u :=
        (keepFirstByKey_sublist key n _ hlen).subset hb
      have := List.of_mem_filter hmem
      exact (by simpa using this : key b ≠ key u).symm

lemma findDuplicatesAux_of_pairwise (key : String → String) :
    ∀ (l : List String) (seen : List (String × String)),
      (∀ u ∈ l, lookupKey seen (key u) = none) →
      l.Pairwise (fun a b => key a ≠ key b) →
      findDuplicatesAux key seen l = (l, []) := by
  intro l
  induction l with
  | nil => intro seen _ _; rfl
  | cons u rest ih =>
    intro seen hseen hpw
    have hseen' : ∀ v ∈ rest, lookupKey ((key u, u) :: seen) (key v) = none := by
      intro v hv
      rw [lookupKey, if_neg ((List.pairwise_cons.mp hpw).1 v hv).symm]
      exact hseen v (List.mem_cons_of_mem u hv)
    rw [findDuplicatesAux]
    dsimp only
    rw [hseen u (List.mem_cons_self u rest)]
    dsimp only
    rw [ih ((key u, u) :: seen) hseen' (List.pairwise_cons.mp hpw).2]

lemma findDuplicates_of_pairwise (parse : String → Option UrlParts)
    (l : List String)
    (hpw : l.Pairwise (fun a b =>
      normalizeUrlForComparison parse a ≠ normalizeUrlForComparison parse b)) :
    findDuplicates parse l =
      { uniqueUrls := l, duplicates := [], hasDuplicates := false } := by
  unfold findDuplicates
  dsimp only
  rw [findDuplicatesAux_of_pairwise (normalizeUrlForComparison parse) l []
    (fun _ _ => rfl) hpw]
  rfl

/-- C7: `findDuplicates` groups by the normalized comparison key
(`normalizeUrlForComparison`: lower-cased host, `www.` prefix stripped,
fragment dropped), keeps the first occurrence of each key so that
`uniqueUrls` is the in-order list of first occurrences (a sublist of the
input), and is idempotent: run on its own `uniqueUrls` output it returns
the same sequence with an empty duplicates list. -/
theorem claim_C7_deduplicate_first_occurrence_idempotent
    (parse : String → Option UrlParts) (urls : List String) :
    (findDuplicates parse urls).uniqueUrls =
      keepFirstByKey (normalizeUrlForComparison parse) urls ∧
    List.Sublist (findDuplicates parse urls).uniqueUrls urls ∧
    findDuplicates parse ((findDuplicates parse urls).uniqueUrls) =
      { uniqueUrls := (findDuplicates parse urls).uniqueUrls, duplicates := [],
        hasDuplicates := false } := by
  have h₁ : (findDuplicates parse urls).uniqueUrls =
      keepFirstByKey (normalizeUrlForComparison parse) urls := by
    show (findDuplicatesAux (normalizeUrlForComparison parse) [] urls).1 = _
    rw [findDuplicatesAux_fst]
    congr 1
    exact List.filter_eq_self.mpr (fun a _ => rfl)
  refine ⟨h₁, ?_, ?_⟩
  · rw [h₁]
    exact keepFirstByKey_sublist _ urls.length urls (le_refl _)
  · refine findDuplicates_of_pairwise parse _ ?_
    rw [h₁]
    exact keepFirstByKey_pairwise _ urls.length urls (le_refl _)

end Wayback
